import Mathlib

/-!
Verification of the Dice job-automation scripts
(`scripts/apply_job.py`, `scripts/scrape_dice.py`).

The Python sources are shallowly embedded below.  Pure text processing
(`check_eligibility`, `get_overview_text`, the scraper's dedup) becomes pure
Lean functions over `String` / `List`.  The Selenium-driven control flow of
`login`, `apply_easy` and `main` is embedded as functions over an environment
record (`Env`) whose boolean fields record the outcome of each external
interaction (whether a bounded wait succeeded, whether a UI step raised);
the functions reproduce the source's branching, `try/except` and
`try/finally` structure over those outcomes.
-/

namespace DiceJobs

/-! ## Python string primitives

Lean core's `String.splitOn`, `String.trim`, `String.toLower` are defined by
well-founded recursion over byte positions and do not reduce well in the
kernel, so we re-implement the needed Python string operations structurally
over `List Char`. -/

/-- Characters stripped by Python `str.strip()` (ASCII whitespace). -/
def isSpaceChar (c : Char) : Bool :=
  c == ' ' || c == '\t' || c == '\n' || c == '\r' || c == '\x0b' || c == '\x0c'

/-- Strip leading and trailing whitespace from a char list. -/
def trimChars (cs : List Char) : List Char :=
  ((cs.dropWhile isSpaceChar).reverse.dropWhile isSpaceChar).reverse

/-- Python `str.strip()`. -/
def pyStrip (s : String) : String := ⟨trimChars s.data⟩

/-- ASCII lower-casing of one character. -/
def lowerChar (c : Char) : Char :=
  if 'A' ≤ c && c ≤ 'Z' then Char.ofNat (c.toNat + 32) else c

/-- Python `str.lower()` (ASCII fragment). -/
def pyLower (s : String) : String := ⟨s.data.map lowerChar⟩

/-- Does `hay` start with `needle`? -/
def charsStartWith : List Char → List Char → Bool
  | [], _ => true
  | _ :: _, [] => false
  | n :: ns, h :: hs => n == h && charsStartWith ns hs

/-- Does `hay` contain `needle` as a contiguous sublist? -/
def charsContain (needle : List Char) : List Char → Bool
  | [] => charsStartWith needle []
  | h :: hs => charsStartWith needle (h :: hs) || charsContain needle hs

/-- Python `needle in hay` on strings: substring containment. -/
def substrOf (needle hay : String) : Bool := charsContain needle.data hay.data

/-- Split a char list at newline characters, Python `str.splitlines()` style:
the empty string yields no lines and a trailing newline opens no extra line. -/
def splitlinesChars : List Char → List (List Char)
  | [] => []
  | c :: cs =>
    if c == '\n' then [] :: splitlinesChars cs
    else match splitlinesChars cs with
      | [] => [[c]]
      | l :: ls => (c :: l) :: ls

/-- Python `str.splitlines()` (newline separators). -/
def splitlines (s : String) : List String :=
  (splitlinesChars s.data).map (fun cs => ⟨cs⟩)

/-! ## Eligibility classifier (`apply_job.py`, lines 86-112) -/

/-- `get_overview_text`: the Job Details section's text, stripped and
lower-cased; the empty string when the DOM region is absent (the `except`
branch). -/
def get_overview_text (domText : Option String) : String :=
  match domText with
  | some t => pyLower (pyStrip t)
  | none => ""

/-- The `valid_terms` list of `check_eligibility` (line 101). -/
def valid_terms : List String :=
  ["contract - 3", "contract - 6", "contract - 9", "contract - 12",
   "contract - independent"]

/-- The `strict_skip` list of `check_eligibility` (line 104). -/
def strict_skip : List String := ["w2", "contract - w2", "full time", "full-time"]

/-- `has_c2c` (line 99): some line contains the substring "corp to corp". -/
def has_c2c (overview_lines : List String) : Bool :=
  overview_lines.any (fun line => substrOf "corp to corp" line)

/-- `has_valid_term` (line 102): some line is exactly equal to a valid term
(Python `term in overview_lines` is list membership, not substring). -/
def has_valid_term (overview_lines : List String) : Bool :=
  valid_terms.any (fun term => overview_lines.contains term)

/-- `is_w2_only` (line 105): some line is exactly equal to a strict-skip
string. -/
def is_w2_only (overview_lines : List String) : Bool :=
  strict_skip.any (fun skip => overview_lines.contains skip)

/-- The decision of `check_eligibility` (lines 107-112) as a function of the
already-split line list. -/
def check_eligibility_lines (overview_lines : List String) : Bool :=
  if is_w2_only overview_lines &&
      !(has_c2c overview_lines || has_valid_term overview_lines)
  then false
  else true

/-- Line 97: `[line.strip() for line in overview.splitlines()]`. -/
def normalize_lines (overview : String) : List String :=
  (splitlines overview).map pyStrip

/-- `check_eligibility` (lines 94-112) on the overview text returned by
`get_overview_text`: `true` = eligible. -/
def check_eligibility (overview : String) : Bool :=
  check_eligibility_lines (normalize_lines overview)

/-- The spec's verdict type. -/
inductive EligibilityVerdict where
  | Eligible : EligibilityVerdict
  | Ineligible : String → EligibilityVerdict
deriving DecidableEq, Repr

/-- The spec's `classify`: the tagged view of `check_eligibility`'s boolean
(`False` is the "W2/FT only" rejection). -/
def classify (overview : String) : EligibilityVerdict :=
  if check_eligibility overview then .Eligible else .Ineligible "w2_or_fulltime"

example : classify "full-time\nremote" = .Ineligible "w2_or_fulltime" := by decide
example : classify "full-time\ncorp to corp ok" = .Eligible := by decide
example : classify "full-time\ncontract - 6" = .Eligible := by decide
example : classify "full-time\ncontract - 6 months" = .Ineligible "w2_or_fulltime" := by
  decide
example : classify "" = .Eligible := by decide
example : get_overview_text (some "  Full-Time \nRemote") = "full-time \nremote" := by
  decide

/-! ## Application run model (`apply_job.py`, lines 47-195)

The Selenium-driven control flow is embedded over an environment whose fields
record the outcome of each external interaction: whether a bounded wait's
condition became true within its timeout and whether a UI step raised.  Fixed
navigations (`driver.get`) and script/scroll calls are assumed not to raise;
every modelled branch corresponds to a branch or a `try/except`/`try/finally`
edge in the source. -/

structure Env where
  /-- `init_driver()` (line 165) raises no exception. -/
  initOk : Bool
  /-- The UI interactions inside `login`'s `try` block (email entry through
  the Sign-In click, lines 54-72) raise no exception. -/
  loginStepsOk : Bool
  /-- `driver.current_url` after the Sign-In click (line 74). -/
  postLoginUrl : String
  /-- Text of the Job Details section, `none` when the element is absent. -/
  jobDomText : Option String
  /-- The `applyButton` wait succeeds and its click raises nothing
  (lines 117-120). -/
  applyBtnOk : Bool
  /-- The URL reaches an "/apply" segment within the timeout (line 122). -/
  applyUrlOk : Bool
  /-- The optional Next control is present and clickable within its
  timeout (line 126). -/
  nextBtnPresent : Bool
  /-- The URL reaches an "/apply/submit" segment within the timeout
  (line 132). -/
  submitUrlOk : Bool
  /-- The Submit control wait succeeds and its click raises nothing
  (lines 135-138). -/
  submitBtnOk : Bool
deriving DecidableEq, Repr

/-- What `login` (lines 47-84) leaves behind: its boolean result and whether
`driver.save_screenshot("login_error.png")` ran.  An exception inside the
`try` block returns `False` from the `except` handler *without* reaching the
screenshot statement; only the URL-check failure path (lines 78-80) saves the
screenshot. -/
def login (e : Env) : Bool × Bool :=
  if !e.loginStepsOk then (false, false)
  else if substrOf "dashboard" e.postLoginUrl || substrOf "jobs" e.postLoginUrl then
    (true, false)
  else (false, true)

/-- The wizard stage at which `apply_easy` (lines 114-146) fails, or `none`
on success.  The branches follow the first raising statement of the `try`
block; the inner `try/except: pass` around the Next control (lines 125-130)
swallows both absence and failure, so no branch depends on it.  The stage
names are the spec's `ApplyFailed(stage)` tags. -/
def apply_easy_fail (e : Env) : Option String :=
  if !(e.applyBtnOk && e.applyUrlOk) then some "open"
  else if !e.submitUrlOk then some "submit_page"
  else if !e.submitBtnOk then some "submit"
  else none

/-- `apply_easy`'s boolean result: `True` exactly when no statement of the
`try` block raised. -/
def apply_easy (e : Env) : Bool := (apply_easy_fail e).isNone

/-- Observable terminal result of one process run of `main`
(lines 148-195). -/
structure RunResult where
  /-- The `sys.exit` status. -/
  exitCode : Nat
  /-- The final summary line printed before exiting. -/
  summary : String
  /-- Whether `login_error.png` was saved. -/
  screenshotSaved : Bool
  /-- How many times `driver.quit()` ran (the `finally` block, line 193-195,
  runs once on every exit of the `try`, and skips `quit` when `driver` is
  still `None`). -/
  quitCount : Nat
deriving DecidableEq, Repr

/-- `main` (lines 148-195) with all four positional arguments supplied.  An
exception from `init_driver` is caught by the outer `except` (summary
`"FAILED: <exception>"`) with `driver` still `None`, so `finally` does not
quit; on every later path `driver` is bound and `finally` quits exactly
once.  `sys.exit` raises `SystemExit`, which the `except Exception` clause
does not catch but the `finally` clause still runs through. -/
def runMain (e : Env) : RunResult :=
  if !e.initOk then
    ⟨1, "FAILED: <exception>", false, 0⟩
  else if !(login e).1 then
    ⟨1, "FAILED: Login failed", (login e).2, 1⟩
  else if !(check_eligibility (get_overview_text e.jobDomText)) then
    ⟨2, "SKIPPED: Not eligible", (login e).2, 1⟩
  else if apply_easy e then
    ⟨0, "SUCCESS: Applied", (login e).2, 1⟩
  else
    ⟨1, "FAILED: Could not apply", (login e).2, 1⟩

/-- The run ended in login failure (the `sys.exit(1)` at line 169). -/
def loginFailedRun (e : Env) : Prop := e.initOk = true ∧ (login e).1 = false

/-- The run was skipped as ineligible (the `sys.exit(2)` at line 180). -/
def skippedRun (e : Env) : Prop :=
  e.initOk = true ∧ (login e).1 = true ∧
    check_eligibility (get_overview_text e.jobDomText) = false

/-- The run submitted the application (the `sys.exit(0)` at line 184). -/
def submittedRun (e : Env) : Prop :=
  e.initOk = true ∧ (login e).1 = true ∧
    check_eligibility (get_overview_text e.jobDomText) = true ∧
    apply_easy e = true

/-- The run failed inside the apply flow (the `sys.exit(1)` at line 187). -/
def applyFailedRun (e : Env) : Prop :=
  e.initOk = true ∧ (login e).1 = true ∧
    check_eligibility (get_overview_text e.jobDomText) = true ∧
    apply_easy e = false

/-! ## Discovery pipeline (`scrape_dice.py`, lines 54-115) -/

/-- One row of the JOB_QUEUE sheet (the dict built at lines 54-60). -/
structure JobRecord where
  job_url : String
  job_title : String
  keyword : String
  discovered_at : String
  status : String
deriving DecidableEq, Repr

/-- One dict-insertion step of the comprehension at line 109: if the url is
already a key, replace its value with the later record; otherwise append a
new entry. -/
def dedup_step (acc : List JobRecord) (job : JobRecord) : List JobRecord :=
  if acc.any (fun j => j.job_url == job.job_url) then
    acc.map (fun j => if j.job_url == job.job_url then job else j)
  else acc ++ [job]

/-- Line 109: `{job['job_url']: job for job in all_jobs}.values()`.
A Python dict comprehension keeps keys in first-insertion order and, for a
repeated key, the last value assigned; the fold reproduces that. -/
def unique_jobs (jobs : List JobRecord) : List JobRecord :=
  jobs.foldl dedup_step []

/-- Line 81: `[job for job in jobs if job['job_url'] not in existing_urls]`
(membership in the url set built at line 79). -/
def new_jobs_of (existing jobs : List JobRecord) : List JobRecord :=
  jobs.filter
    (fun j => !((existing.map JobRecord.job_url).contains j.job_url))

/-- `save_to_job_queue` (lines 69-90) as a function from the existing sheet
rows and the incoming batch to the final sheet rows: rows whose `job_url`
already occurs in the sheet are filtered out and the rest are appended in
order (the two early returns leave the sheet unchanged). -/
def save_to_job_queue (existing jobs : List JobRecord) : List JobRecord :=
  if jobs = [] then existing
  else if new_jobs_of existing jobs = [] then existing
  else existing ++ new_jobs_of existing jobs

/-- The discovery sink as `main` (lines 109-115) invokes it: the scraped
batch is first deduplicated by url, then appended through
`save_to_job_queue`. -/
def discovery_sink (existing batch : List JobRecord) : List JobRecord :=
  save_to_job_queue existing (unique_jobs batch)

/-! ## Helper lemmas -/

theorem contains_eq_of_mem_iff {l1 l2 : List String}
    (h : ∀ s, s ∈ l1 ↔ s ∈ l2) (a : String) : l1.contains a = l2.contains a := by
  rw [Bool.eq_iff_iff]
  constructor
  · intro ha; exact List.elem_iff.mpr ((h a).mp (List.elem_iff.mp ha))
  · intro ha; exact List.elem_iff.mpr ((h a).mpr (List.elem_iff.mp ha))

theorem any_eq_of_mem_iff {l1 l2 : List String} {p : String → Bool}
    (h : ∀ s, s ∈ l1 ↔ s ∈ l2) : l1.any p = l2.any p := by
  rw [Bool.eq_iff_iff]
  simp only [List.any_eq_true]
  constructor
  · rintro ⟨x, hx, hp⟩; exact ⟨x, (h x).mp hx, hp⟩
  · rintro ⟨x, hx, hp⟩; exact ⟨x, (h x).mpr hx, hp⟩

theorem any_congr_fun {α : Type} (l : List α) {p q : α → Bool}
    (h : ∀ x ∈ l, p x = q x) : l.any p = l.any q := by
  induction l with
  | nil => rfl
  | cons x xs ih =>
    simp only [List.any_cons, h x (List.mem_cons_self x xs),
      ih (fun y hy => h y (List.mem_cons_of_mem x hy))]

theorem is_w2_only_iff (lines : List String) :
    is_w2_only lines = true ↔ ∃ l ∈ lines, l ∈ strict_skip := by
  simp only [is_w2_only, List.any_eq_true, ← List.elem_iff]
  exact ⟨fun ⟨x, h1, h2⟩ => ⟨x, h2, h1⟩, fun ⟨x, h1, h2⟩ => ⟨x, h2, h1⟩⟩

theorem has_valid_term_iff (lines : List String) :
    has_valid_term lines = true ↔ ∃ l ∈ lines, l ∈ valid_terms := by
  simp only [has_valid_term, List.any_eq_true, ← List.elem_iff]
  exact ⟨fun ⟨x, h1, h2⟩ => ⟨x, h2, h1⟩, fun ⟨x, h1, h2⟩ => ⟨x, h2, h1⟩⟩

theorem has_c2c_iff (lines : List String) :
    has_c2c lines = true ↔ ∃ l ∈ lines, substrOf "corp to corp" l = true := by
  simp only [has_c2c, List.any_eq_true]

theorem has_c2c_false_iff (lines : List String) :
    has_c2c lines = false ↔ ∀ l ∈ lines, substrOf "corp to corp" l = false := by
  rw [← Bool.not_eq_true, has_c2c_iff]
  push_neg
  simp only [Bool.not_eq_true]

theorem has_valid_term_false_iff (lines : List String) :
    has_valid_term lines = false ↔ ∀ l ∈ lines, l ∉ valid_terms := by
  rw [← Bool.not_eq_true, has_valid_term_iff]
  push_neg
  exact Iff.rfl

theorem check_eligibility_lines_false_iff (lines : List String) :
    check_eligibility_lines lines = false ↔
      is_w2_only lines = true ∧ has_c2c lines = false ∧
        has_valid_term lines = false := by
  unfold check_eligibility_lines
  cases h1 : is_w2_only lines <;> cases h2 : has_c2c lines <;>
    cases h3 : has_valid_term lines <;> simp

theorem classify_ineligible_iff (o : String) :
    classify o = .Ineligible "w2_or_fulltime" ↔ check_eligibility o = false := by
  unfold classify
  cases h : check_eligibility o <;> simp

theorem classify_eligible_iff (o : String) :
    classify o = .Eligible ↔ check_eligibility o = true := by
  unfold classify
  cases h : check_eligibility o <;> simp

/-! ## Claims about the eligibility classifier -/

/-- Claim C1: for every posting overview, `classify` returns
`Ineligible("w2_or_fulltime")` if and only if some normalized line exactly
equals one of the strict-skip strings, no line contains the substring
"corp to corp", and no line exactly equals a valid-term string; in every
other case it returns `Eligible`. -/
theorem claim_C1 (overview : String) :
    (classify overview = .Ineligible "w2_or_fulltime" ↔
      ((∃ l ∈ normalize_lines overview, l ∈ strict_skip) ∧
       (∀ l ∈ normalize_lines overview, substrOf "corp to corp" l = false) ∧
       (∀ l ∈ normalize_lines overview, l ∉ valid_terms))) ∧
    (¬ ((∃ l ∈ normalize_lines overview, l ∈ strict_skip) ∧
       (∀ l ∈ normalize_lines overview, substrOf "corp to corp" l = false) ∧
       (∀ l ∈ normalize_lines overview, l ∉ valid_terms)) →
      classify overview = .Eligible) := by
  have key : classify overview = .Ineligible "w2_or_fulltime" ↔
      ((∃ l ∈ normalize_lines overview, l ∈ strict_skip) ∧
       (∀ l ∈ normalize_lines overview, substrOf "corp to corp" l = false) ∧
       (∀ l ∈ normalize_lines overview, l ∉ valid_terms)) := by
    rw [classify_ineligible_iff]
    unfold check_eligibility
    rw [check_eligibility_lines_false_iff, is_w2_only_iff, has_c2c_false_iff,
      has_valid_term_false_iff]
  refine ⟨key, fun hnot => ?_⟩
  rcases h : classify overview with _ | r
  · rfl
  · exfalso
    have : check_eligibility overview = false := by
      revert h; unfold classify
      cases hc : check_eligibility overview <;> simp
    exact hnot (key.mp (by rw [h] at key ⊢; rw [← h]; exact (classify_ineligible_iff overview).mpr this))

/-- Witness for C1: a W2-only overview is rejected and a corp-to-corp
override is accepted. -/
theorem claim_C1_witness :
    classify "full-time\nremote" = .Ineligible "w2_or_fulltime" ∧
    classify "corp to corp\nfull-time" = .Eligible :=
  ⟨(claim_C1 "full-time\nremote").1.mpr (by decide),
   (claim_C1 "corp to corp\nfull-time").2 (by decide)⟩

/-- Claim C2: valid-term detection is exact-line equality while C2C detection
is substring containment; an overview where a valid term occurs only as a
proper substring of a line has `has_valid_term = false`, while
"corp to corp" occurring as a substring of any line makes `has_c2c`
true. -/
theorem claim_C2 (lines : List String) :
    (has_valid_term lines = true ↔ ∃ l ∈ lines, l ∈ valid_terms) ∧
    (has_c2c lines = true ↔ ∃ l ∈ lines, substrOf "corp to corp" l = true) ∧
    (substrOf "contract - 6" "contract - 6 months" = true ∧
     has_valid_term ["contract - 6 months"] = false ∧
     has_c2c ["posting with corp to corp inside"] = true) :=
  ⟨has_valid_term_iff lines, has_c2c_iff lines, by decide⟩

/-- Claim C3: an overview with zero extractable lines — including the empty
string the page-text extractor returns when the DOM region is absent —
classifies as `Eligible`: with no lines `is_w2_only` is false, so the
verdict is `Eligible`. -/
theorem claim_C3 :
    get_overview_text none = "" ∧
    normalize_lines "" = [] ∧
    is_w2_only [] = false ∧
    classify (get_overview_text none) = .Eligible := by
  decide

/-- Claim C10: the eligibility verdict depends only on which normalized
lines occur in the overview, not on their order or multiplicity: any two
line lists with the same members classify identically. -/
theorem claim_C10 (l1 l2 : List String) (h : ∀ s, s ∈ l1 ↔ s ∈ l2) :
    check_eligibility_lines l1 = check_eligibility_lines l2 := by
  have hc2c : has_c2c l1 = has_c2c l2 := any_eq_of_mem_iff h
  have hw2 : is_w2_only l1 = is_w2_only l2 := by
    unfold is_w2_only
    exact any_congr_fun _ (fun x _ => contains_eq_of_mem_iff h x)
  have hvt : has_valid_term l1 = has_valid_term l2 := by
    unfold has_valid_term
    exact any_congr_fun _ (fun x _ => contains_eq_of_mem_iff h x)
  simp [check_eligibility_lines, hc2c, hw2, hvt]

/-- Witness for C10 at a concrete permuted-and-duplicated line list. -/
theorem claim_C10_witness :
    (∀ s : String, s ∈ ["full-time", "remote"] ↔
        s ∈ ["remote", "remote", "full-time"]) ∧
    check_eligibility_lines ["full-time", "remote"] =
      check_eligibility_lines ["remote", "remote", "full-time"] := by
  have h : ∀ s : String, s ∈ ["full-time", "remote"] ↔
      s ∈ ["remote", "remote", "full-time"] := by
    intro s
    constructor <;> (intro hs; simp only [List.mem_cons, List.not_mem_nil, or_false] at hs ⊢; tauto)
  exact ⟨h, claim_C10 _ _ h⟩

/-! ## Claims about the application run -/

theorem login_fst_true_snd (e : Env) (hl : (login e).1 = true) :
    (login e).2 = false := by
  unfold login at hl ⊢
  cases hs : e.loginStepsOk <;>
    cases hu : (substrOf "dashboard" e.postLoginUrl ||
      substrOf "jobs" e.postLoginUrl) <;> simp_all

theorem login_fst_false_snd (e : Env) (hl : (login e).1 = false) :
    (login e).2 = e.loginStepsOk := by
  unfold login at hl ⊢
  cases hs : e.loginStepsOk <;>
    cases hu : (substrOf "dashboard" e.postLoginUrl ||
      substrOf "jobs" e.postLoginUrl) <;> simp_all

/-- A reference environment in which every interaction succeeds and the job
is a corp-to-corp posting. -/
def baseEnv : Env :=
  { initOk := true, loginStepsOk := true,
    postLoginUrl := "https://www.dice.com/dashboard", jobDomText := some "Corp To Corp",
    applyBtnOk := true, applyUrlOk := true, nextBtnPresent := false,
    submitUrlOk := true, submitBtnOk := true }

/-- Environment failing at the apply-button / "/apply" URL waits. -/
def envOpenFail : Env := { baseEnv with applyBtnOk := false, applyUrlOk := false }

/-- Environment failing at the "/apply/submit" URL wait. -/
def envSubmitPageFail : Env := { baseEnv with submitUrlOk := false }

/-- Environment failing at the final Submit control. -/
def envSubmitFail : Env := { baseEnv with submitBtnOk := false }

/-- Environment in which the login flow raises an exception. -/
def envLoginExc : Env := { baseEnv with loginStepsOk := false }

/-- Environment in which the login interactions succeed but the post-login
URL never reaches an authenticated page. -/
def envLoginUrlFail : Env := { baseEnv with postLoginUrl := "https://www.dice.com/signin" }

/-- Counterexample for C4: runs that fail at the open, submit-page and
submit stages all terminate with the identical observable result
(exit status 1, summary "FAILED: Could not apply"), and a LoginFailed run
exits with the same status code — so the terminal value of a run failing at
`OPENING_APPLY` is not distinguishable from the other apply-failure stages. -/
theorem claim_C4_counterexample :
    apply_easy_fail envOpenFail = some "open" ∧
    apply_easy_fail envSubmitPageFail = some "submit_page" ∧
    apply_easy_fail envSubmitFail = some "submit" ∧
    runMain envOpenFail = runMain envSubmitPageFail ∧
    runMain envOpenFail = runMain envSubmitFail ∧
    (runMain envOpenFail).exitCode = (runMain envLoginExc).exitCode := by
  decide

/-- Claim C4 amended: a run that fails while opening the apply flow
terminates with exit status 1 and summary "FAILED: Could not apply" —
distinguishable from Submitted (exit 0) and Skipped (exit 2), and from
LoginFailed only through the summary line, but identical to runs failing at
the submit-page or submit stages. -/
theorem claim_C4_amended (e : Env) (h : e.initOk = true)
    (hl : (login e).1 = true)
    (hc : check_eligibility (get_overview_text e.jobDomText) = true)
    (hf : apply_easy_fail e = some "open") :
    runMain e = ⟨1, "FAILED: Could not apply", false, 1⟩ ∧
    (runMain e).exitCode ≠ 0 ∧ (runMain e).exitCode ≠ 2 ∧
    (runMain e).summary ≠ "FAILED: Login failed" := by
  have hsnd : (login e).2 = false := login_fst_true_snd e hl
  have ha : apply_easy e = false := by
    unfold apply_easy; rw [hf]; rfl
  have hrm : runMain e = ⟨1, "FAILED: Could not apply", false, 1⟩ := by
    unfold runMain; rw [h, hl, hc, ha, hsnd]; rfl
  exact ⟨hrm, by rw [hrm]; decide, by rw [hrm]; decide, by rw [hrm]; decide⟩

/-- Witness for the amended C4 at an environment failing the apply-open
waits. -/
theorem claim_C4_amended_witness :
    (envOpenFail.initOk = true ∧ (login envOpenFail).1 = true ∧
     check_eligibility (get_overview_text envOpenFail.jobDomText) = true ∧
     apply_easy_fail envOpenFail = some "open") ∧
    runMain envOpenFail = ⟨1, "FAILED: Could not apply", false, 1⟩ :=
  ⟨⟨by decide, by decide, by decide, by decide⟩,
   (claim_C4_amended envOpenFail (by decide) (by decide) (by decide) (by decide)).1⟩

/-- Claim C5: past the eligibility gate and a successfully opened apply
flow, absence of the optional Next control is not a failure — the failure
stage can no longer be "open", the result is the same as when the control is
present, and failing before the submit stage is decided solely by the
"/apply/submit" URL wait. -/
theorem claim_C5 (e : Env) (h1 : e.applyBtnOk = true) (h2 : e.applyUrlOk = true)
    (_h3 : e.nextBtnPresent = false) :
    apply_easy_fail e ≠ some "open" ∧
    apply_easy_fail e = apply_easy_fail { e with nextBtnPresent := true } ∧
    (apply_easy_fail e = some "submit_page" ↔ e.submitUrlOk = false) := by
  unfold apply_easy_fail
  rw [h1, h2]
  refine ⟨?_, rfl, ?_⟩ <;>
    cases h4 : e.submitUrlOk <;> cases h5 : e.submitBtnOk <;> simp

/-- Witness for C5 at the reference environment. -/
theorem claim_C5_witness :
    (baseEnv.applyBtnOk = true ∧ baseEnv.applyUrlOk = true ∧
     baseEnv.nextBtnPresent = false) ∧
    (apply_easy_fail baseEnv ≠ some "open" ∧
     apply_easy_fail baseEnv = apply_easy_fail { baseEnv with nextBtnPresent := true } ∧
     (apply_easy_fail baseEnv = some "submit_page" ↔ baseEnv.submitUrlOk = false)) :=
  ⟨⟨by decide, by decide, by decide⟩,
   claim_C5 baseEnv (by decide) (by decide) (by decide)⟩

/-- Claim C6: on every exit path in which the browser session was acquired
(`init_driver` returned), the `finally` block releases the session exactly
once, whatever the terminal outcome. -/
theorem claim_C6 (e : Env) (h : e.initOk = true) : (runMain e).quitCount = 1 := by
  unfold runMain
  rw [h]
  cases hl : (login e).1 <;>
    cases hc : check_eligibility (get_overview_text e.jobDomText) <;>
      cases ha : apply_easy e <;> simp

/-- Witness for C6 at the reference environment. -/
theorem claim_C6_witness :
    baseEnv.initOk = true ∧ (runMain baseEnv).quitCount = 1 :=
  ⟨by decide, claim_C6 baseEnv (by decide)⟩

/-- Claim C8: with the positional arguments supplied (and the driver
acquired), the process exit status encodes the outcome: 0 exactly when the
application was submitted, 1 exactly when login or the apply flow failed,
and 2 exactly when the job was skipped as ineligible. -/
theorem claim_C8 (e : Env) (h : e.initOk = true) :
    ((runMain e).exitCode = 0 ↔ submittedRun e) ∧
    ((runMain e).exitCode = 1 ↔ loginFailedRun e ∨ applyFailedRun e) ∧
    ((runMain e).exitCode = 2 ↔ skippedRun e) := by
  unfold runMain submittedRun loginFailedRun applyFailedRun skippedRun
  rw [h]
  cases hl : (login e).1 <;>
    cases hc : check_eligibility (get_overview_text e.jobDomText) <;>
      cases ha : apply_easy e <;> simp [hl, hc, ha]

/-- Witness for C8 at an environment that submits successfully. -/
theorem claim_C8_witness :
    baseEnv.initOk = true ∧
    ((runMain baseEnv).exitCode = 0 ↔ submittedRun baseEnv) :=
  ⟨by decide, (claim_C8 baseEnv (by decide)).1⟩

/-- Counterexample for C9: when the login flow raises an exception, the run
terminates as a login failure yet no diagnostic screenshot was captured
(the `except` handler returns before the screenshot statement). -/
theorem claim_C9_counterexample :
    loginFailedRun envLoginExc ∧
    (runMain envLoginExc).summary = "FAILED: Login failed" ∧
    (runMain envLoginExc).screenshotSaved = false := by
  constructor
  · exact ⟨by decide, by decide⟩
  · exact ⟨by decide, by decide⟩

/-- Claim C9 amended: on a LoginFailed run the diagnostic screenshot is
captured exactly when the login interactions completed and only the
post-login URL check failed; a login failure caused by an exception inside
the login flow captures no screenshot. -/
theorem claim_C9_amended (e : Env) (h : e.initOk = true)
    (hl : (login e).1 = false) :
    (runMain e).summary = "FAILED: Login failed" ∧
    ((runMain e).screenshotSaved = true ↔ e.loginStepsOk = true) := by
  have hsnd := login_fst_false_snd e hl
  unfold runMain
  rw [h, hl, hsnd]
  exact ⟨rfl, Iff.rfl⟩

/-- Witness for the amended C9 at an environment whose post-login URL check
fails. -/
theorem claim_C9_amended_witness :
    (envLoginUrlFail.initOk = true ∧ (login envLoginUrlFail).1 = false) ∧
    ((runMain envLoginUrlFail).summary = "FAILED: Login failed" ∧
     ((runMain envLoginUrlFail).screenshotSaved = true ↔
        envLoginUrlFail.loginStepsOk = true)) :=
  ⟨⟨by decide, by decide⟩,
   claim_C9_amended envLoginUrlFail (by decide) (by decide)⟩

/-! ## Claims about the discovery queue -/

theorem any_url_eq (acc : List JobRecord) (job : JobRecord) :
    acc.any (fun j => j.job_url == job.job_url) = true ↔
      job.job_url ∈ acc.map JobRecord.job_url := by
  simp [List.any_eq_true]

theorem dedup_step_map_url (acc : List JobRecord) (job : JobRecord) :
    (dedup_step acc job).map JobRecord.job_url =
      if job.job_url ∈ acc.map JobRecord.job_url then acc.map JobRecord.job_url
      else acc.map JobRecord.job_url ++ [job.job_url] := by
  unfold dedup_step
  by_cases hmem : job.job_url ∈ acc.map JobRecord.job_url
  · rw [if_pos hmem, if_pos ((any_url_eq acc job).mpr hmem), List.map_map]
    refine List.map_congr_left ?_
    intro j _
    simp only [Function.comp]
    by_cases hb : (j.job_url == job.job_url) = true
    · rw [if_pos hb]; exact (beq_iff_eq.mp hb).symm
    · rw [if_neg hb]
  · have hany : ¬ (acc.any (fun j => j.job_url == job.job_url) = true) :=
      fun hcon => hmem ((any_url_eq acc job).mp hcon)
    rw [if_neg hmem, if_neg hany, List.map_append]
    rfl

theorem dedup_step_mem (acc : List JobRecord) (job : JobRecord) :
    ∀ x ∈ dedup_step acc job, x ∈ acc ∨ x = job := by
  intro x hx
  unfold dedup_step at hx
  by_cases hany : acc.any (fun j => j.job_url == job.job_url) = true
  · rw [if_pos hany] at hx
    rcases List.mem_map.mp hx with ⟨j, hj, hje⟩
    by_cases hb : (j.job_url == job.job_url) = true
    · rw [if_pos hb] at hje
      exact Or.inr hje.symm
    · rw [if_neg hb] at hje
      exact Or.inl (hje ▸ hj)
  · rw [if_neg hany] at hx
    rcases List.mem_append.mp hx with h | h
    · exact Or.inl h
    · exact Or.inr (List.mem_singleton.mp h)

theorem foldl_dedup_spec (jobs : List JobRecord) :
    ∀ acc : List JobRecord, (acc.map JobRecord.job_url).Nodup →
      ((jobs.foldl dedup_step acc).map JobRecord.job_url).Nodup ∧
      (∀ x ∈ jobs.foldl dedup_step acc, x ∈ acc ∨ x ∈ jobs) ∧
      (∀ u, u ∈ (jobs.foldl dedup_step acc).map JobRecord.job_url ↔
            u ∈ acc.map JobRecord.job_url ∨ u ∈ jobs.map JobRecord.job_url) := by
  induction jobs with
  | nil =>
    intro acc h
    exact ⟨h, fun x hx => Or.inl hx, fun u => by simp⟩
  | cons job jobs ih =>
    intro acc h
    have hmap := dedup_step_map_url acc job
    have hnd : ((dedup_step acc job).map JobRecord.job_url).Nodup := by
      rw [hmap]
      by_cases hmem : job.job_url ∈ acc.map JobRecord.job_url
      · rw [if_pos hmem]; exact h
      · rw [if_neg hmem]
        simp [List.nodup_append, h, hmem]
    obtain ⟨ih1, ih2, ih3⟩ := ih (dedup_step acc job) hnd
    rw [List.foldl_cons]
    refine ⟨ih1, ?_, ?_⟩
    · intro x hx
      rcases ih2 x hx with hx' | hx'
      · rcases dedup_step_mem acc job x hx' with h1 | h1
        · exact Or.inl h1
        · exact Or.inr (by rw [h1]; exact List.mem_cons_self job jobs)
      · exact Or.inr (List.mem_cons_of_mem job hx')
    · intro u
      rw [ih3 u, hmap]
      by_cases hmem : job.job_url ∈ acc.map JobRecord.job_url
      · rw [if_pos hmem]
        simp only [List.map_cons, List.mem_cons]
        constructor
        · rintro (h1 | h1)
          · exact Or.inl h1
          · exact Or.inr (Or.inr h1)
        · rintro (h1 | h1 | h1)
          · exact Or.inl h1
          · exact Or.inl (by rw [h1]; exact hmem)
          · exact Or.inr h1
      · rw [if_neg hmem]
        simp only [List.mem_append, List.mem_singleton, List.map_cons,
          List.mem_cons]
        tauto

theorem unique_jobs_spec (batch : List JobRecord) :
    ((unique_jobs batch).map JobRecord.job_url).Nodup ∧
    (∀ x ∈ unique_jobs batch, x ∈ batch) ∧
    (∀ u, u ∈ (unique_jobs batch).map JobRecord.job_url ↔
          u ∈ batch.map JobRecord.job_url) := by
  obtain ⟨h1, h2, h3⟩ := foldl_dedup_spec batch [] (by simp)
  unfold unique_jobs
  refine ⟨h1, ?_, ?_⟩
  · intro x hx
    rcases h2 x hx with h | h
    · simp at h
    · exact h
  · intro u
    rw [h3 u]
    simp

theorem save_to_job_queue_eq (existing jobs : List JobRecord) :
    save_to_job_queue existing jobs = existing ++ new_jobs_of existing jobs := by
  unfold save_to_job_queue
  by_cases h1 : jobs = []
  · rw [if_pos h1, h1]
    simp [new_jobs_of]
  · rw [if_neg h1]
    by_cases h2 : new_jobs_of existing jobs = []
    · rw [if_pos h2, h2]
      simp
    · rw [if_neg h2]

theorem mem_new_jobs_of (existing jobs : List JobRecord) (j : JobRecord) :
    j ∈ new_jobs_of existing jobs ↔
      j ∈ jobs ∧ j.job_url ∉ existing.map JobRecord.job_url := by
  unfold new_jobs_of
  rw [List.mem_filter, Bool.not_eq_true']
  constructor
  · rintro ⟨hj, hc⟩
    refine ⟨hj, fun hmem => ?_⟩
    have hct : (existing.map JobRecord.job_url).contains j.job_url = true :=
      List.elem_iff.mpr hmem
    rw [hct] at hc
    simp at hc
  · rintro ⟨hj, hnm⟩
    refine ⟨hj, ?_⟩
    cases hc : (existing.map JobRecord.job_url).contains j.job_url
    · rfl
    · exact absurd (List.elem_iff.mp hc) hnm

/-- Claim C7: the discovery queue never holds two records with the same url:
for every existing queue with no duplicate urls and every scraped batch, the
pipeline appends exactly one record per batch url not already in the queue —
each appended record comes from the batch, its url is new to the queue, the
resulting url list is duplicate-free, and the final url set is the union of
the existing and batch url sets. -/
theorem claim_C7 (existing batch : List JobRecord)
    (h : (existing.map JobRecord.job_url).Nodup) :
    discovery_sink existing batch =
      existing ++ new_jobs_of existing (unique_jobs batch) ∧
    ((discovery_sink existing batch).map JobRecord.job_url).Nodup ∧
    (∀ r ∈ new_jobs_of existing (unique_jobs batch),
        r ∈ batch ∧ r.job_url ∉ existing.map JobRecord.job_url) ∧
    (∀ u, u ∈ (discovery_sink existing batch).map JobRecord.job_url ↔
          u ∈ existing.map JobRecord.job_url ∨
            u ∈ batch.map JobRecord.job_url) := by
  obtain ⟨hu1, hu2, hu3⟩ := unique_jobs_spec batch
  have heq : discovery_sink existing batch =
      existing ++ new_jobs_of existing (unique_jobs batch) :=
    save_to_job_queue_eq existing (unique_jobs batch)
  have hmemnew : ∀ r ∈ new_jobs_of existing (unique_jobs batch),
      r ∈ batch ∧ r.job_url ∉ existing.map JobRecord.job_url := by
    intro r hr
    obtain ⟨hr1, hr2⟩ := (mem_new_jobs_of existing (unique_jobs batch) r).mp hr
    exact ⟨hu2 r hr1, hr2⟩
  refine ⟨heq, ?_, hmemnew, ?_⟩
  · rw [heq, List.map_append]
    refine List.Nodup.append h ?_ ?_
    · exact List.Nodup.sublist (List.Sublist.map _ (List.filter_sublist _)) hu1
    · intro u hue hun
      rcases List.mem_map.mp hun with ⟨r, hr, hre⟩
      obtain ⟨-, hnm⟩ := (mem_new_jobs_of _ _ r).mp hr
      exact hnm (by rw [hre]; exact hue)
  · intro u
    rw [heq, List.map_append, List.mem_append]
    constructor
    · rintro (h1 | h1)
      · exact Or.inl h1
      · rcases List.mem_map.mp h1 with ⟨r, hr, hre⟩
        obtain ⟨hrb, -⟩ := hmemnew r hr
        exact Or.inr (by rw [← hre]; exact List.mem_map_of_mem JobRecord.job_url hrb)
    · rintro (h1 | h1)
      · exact Or.inl h1
      · by_cases hex : u ∈ existing.map JobRecord.job_url
        · exact Or.inl hex
        · right
          have hmu : u ∈ (unique_jobs batch).map JobRecord.job_url := (hu3 u).mpr h1
          rcases List.mem_map.mp hmu with ⟨r, hr, hre⟩
          have hrn : r ∈ new_jobs_of existing (unique_jobs batch) :=
            (mem_new_jobs_of _ _ r).mpr ⟨hr, by rw [hre]; exact hex⟩
          exact List.mem_map.mpr ⟨r, hrn, hre⟩

/-- Existing queue record with url A. -/
def recA : JobRecord :=
  ⟨"https://www.dice.com/job-detail/A", "Engineer A", "python", "2026-10-01", "Pending"⟩

/-- Freshly scraped record with the same url A but later metadata. -/
def recA2 : JobRecord :=
  ⟨"https://www.dice.com/job-detail/A", "Engineer A reposted", "java", "2026-10-02", "Pending"⟩

/-- Freshly scraped record with the new url B. -/
def recB : JobRecord :=
  ⟨"https://www.dice.com/job-detail/B", "Engineer B", "python", "2026-10-02", "Pending"⟩

/-- Witness for C7: with an existing queue holding url A and a scraped batch
holding urls A and B, only the B record is appended. -/
theorem claim_C7_witness :
    (([recA].map JobRecord.job_url).Nodup) ∧
    discovery_sink [recA] [recA2, recB] = [recA, recB] ∧
    ((discovery_sink [recA] [recA2, recB]).map JobRecord.job_url).Nodup :=
  ⟨by decide, by decide, (claim_C7 [recA] [recA2, recB] (by decide)).2.1⟩

end DiceJobs
